import Mathlib

set_option maxHeartbeats 1000000

/-!
Shallow embedding of `drivers/power/supply/power_supply_sysfs.c`
(sysfs interface of the power supply class) together with proofs about
its codec, visibility and uevent-snapshot behaviour.

Kernel library helpers that are not part of this repository's source
(`sysfs_match_string`, `kstrtol`, `toupper`, `add_uevent_var`) are
modelled from the specification text; every definition carrying such a
model says so in its doc comment.
-/

deriving instance DecidableEq for Except

namespace PowerSupplySysfs

/-- Linux error numbers used by the file (always returned negated). -/
def EINVAL : Int := 22

def ENOMEM : Int := 12

def ENODEV : Int := 19

def EAGAIN : Int := 11

def ENODATA : Int := 61

def ERANGE : Int := 34

/-- The property identifiers (`POWER_SUPPLY_PROP_*`) relevant to the
claims: the six writable-enum properties of the store switch, the
synthetic `type` property, representatives of the plain-int properties
(`present`, `capacity`, `voltage_now`), the single int64 property
`charge_counter_ext`, and the three string properties that sit at the
end of the attribute table (`off >= POWER_SUPPLY_PROP_MODEL_NAME`). -/
inductive PSProp where
  | status
  | charge_type
  | health
  | present
  | technology
  | capacity
  | capacity_level
  | voltage_now
  | type
  | scope
  | charge_counter_ext
  | model_name
  | manufacturer
  | serial_number
deriving DecidableEq, Fintype

/-- `power_supply_type_text` from the source. -/
def power_supply_type_text : List String :=
  ["Unknown", "Battery", "UPS", "Mains", "USB",
   "USB_DCP", "USB_CDP", "USB_ACA", "Wireless", "USB_C",
   "USB_PD", "USB_PD_DRP", "BrickID"]

/-- `power_supply_status_text` from the source. -/
def power_supply_status_text : List String :=
  ["Unknown", "Charging", "Discharging", "Not charging", "Full",
   "Cmd discharging"]

/-- `power_supply_charge_type_text` from the source. -/
def power_supply_charge_type_text : List String :=
  ["Unknown", "N/A", "Trickle", "Fast"]

/-- `power_supply_health_text` from the source. -/
def power_supply_health_text : List String :=
  ["Unknown", "Good", "Overheat", "Dead", "Over voltage",
   "Unspecified failure", "Cold", "Watchdog timer expire",
   "Safety timer expire"]

/-- `power_supply_technology_text` from the source. -/
def power_supply_technology_text : List String :=
  ["Unknown", "NiMH", "Li-ion", "Li-poly", "LiFe", "NiCd",
   "LiMn"]

/-- `power_supply_capacity_level_text` from the source. -/
def power_supply_capacity_level_text : List String :=
  ["Unknown", "Critical", "Low", "Normal", "High", "Full"]

/-- `power_supply_scope_text` from the source. -/
def power_supply_scope_text : List String :=
  ["Unknown", "System", "Device"]

/-- ASCII lower-casing of one character (model of ctype `tolower`). -/
def lowerAscii (c : Char) : Char :=
  if 65 ≤ c.toNat ∧ c.toNat ≤ 90 then Char.ofNat (c.toNat + 32) else c

/-- ASCII upper-casing of one character.  Modelled from the spec: the
snapshot key is "the property's identifier upper-cased"; ctype
`toupper` is not part of this repository's source. -/
def upperAscii (c : Char) : Char :=
  if 97 ≤ c.toNat ∧ c.toNat ≤ 122 then Char.ofNat (c.toNat - 32) else c

/-- The character list of a string, lower-cased. -/
def lowerStr (s : String) : List Char :=
  s.data.map lowerAscii

/-- Case-insensitive string equality. -/
def strCaseEq (a b : String) : Bool :=
  lowerStr a == lowerStr b

/-- Drop one trailing newline, if present (sysfs strings may carry one;
both `sysfs_streq` and `kstrtol` tolerate it). -/
def dropTrailingNl (s : String) : String :=
  match s.data.reverse with
  | c :: rest => if c = '\n' then String.mk rest.reverse else s
  | [] => s

/-- Index of the first table entry matching `t` case-insensitively. -/
def findMatchIdx (t : String) : List String → Option Nat
  | [] => none
  | e :: rest =>
      if strCaseEq e t then some 0 else (findMatchIdx t rest).map (· + 1)

/-- Modelled from the spec: `sysfs_match_string` is not part of this
repository's source; the spec prescribes "a case-insensitive exact
match of `text` against each table entry in order, returning the
matching ordinal", with the sysfs convention that the incoming text may
carry one trailing newline; no match yields `-EINVAL`. -/
def sysfs_match_string (table : List String) (buf : String) : Int :=
  match findMatchIdx (dropTrailingNl buf) table with
  | some i => (i : Int)
  | none => -EINVAL

/-- Numeric value of an ASCII digit character. -/
def digitVal (c : Char) : Option Nat :=
  if 48 ≤ c.toNat ∧ c.toNat ≤ 57 then some (c.toNat - 48) else none

/-- Fold a list of characters as base-10 digits onto `acc`; fails on
the first non-digit. -/
def parseDigitsAux : List Char → Nat → Option Nat
  | [], acc => some acc
  | c :: cs, acc =>
      match digitVal c with
      | some d => parseDigitsAux cs (acc * 10 + d)
      | none => none

/-- Strip an optional leading sign, reporting whether it was a minus. -/
def splitSign (cs : List Char) : Bool × List Char :=
  match cs with
  | c :: rest =>
      if c = '-' then (true, rest)
      else if c = '+' then (false, rest)
      else (false, cs)
  | [] => (false, cs)

/-- Modelled from the spec: `kstrtol` is not part of this repository's
source; the spec prescribes parsing "as a base-10 (optionally signed)
integer", the kernel routine additionally tolerates one trailing
newline, requires the whole remainder to be digits, and reports
`-ERANGE` for values outside the range of C `long` (64-bit here). -/
def kstrtolCore (neg : Bool) (ds : List Char) : Except Int Int :=
  match ds with
  | [] => Except.error (-EINVAL)
  | _ =>
      match parseDigitsAux ds 0 with
      | none => Except.error (-EINVAL)
      | some m =>
          if -(2 ^ 63) ≤ (if neg then -(m : Int) else (m : Int)) ∧
              (if neg then -(m : Int) else (m : Int)) < 2 ^ 63 then
            Except.ok (if neg then -(m : Int) else (m : Int))
          else Except.error (-ERANGE)

def kstrtol (s : String) : Except Int Int :=
  kstrtolCore (splitSign (dropTrailingNl s).data).1
    (splitSign (dropTrailingNl s).data).2

/-- Reduction of an integer modulo 2^32 into signed 32-bit range: the
effect of the C assignment `value.intval = ret` (`intval` is a 32-bit
`int`, `ret` a 64-bit `ssize_t`). -/
def wrap32 (n : Int) : Int :=
  (n + 2 ^ 31) % 2 ^ 32 - 2 ^ 31

/-- The enum table selected by the `switch (off)` statement of
`power_supply_store_property`; properties without a case fall to
`default: ret = -EINVAL`. -/
def storeEnumTable : PSProp → Option (List String)
  | .status => some power_supply_status_text
  | .charge_type => some power_supply_charge_type_text
  | .health => some power_supply_health_text
  | .technology => some power_supply_technology_text
  | .capacity_level => some power_supply_capacity_level_text
  | .scope => some power_supply_scope_text
  | _ => none

/-- The decode phase of `power_supply_store_property`: enum-table match
first, integer fallback when that fails, final value stored through the
32-bit `value.intval` field of the propval union. -/
def power_supply_store_decode (off : PSProp) (buf : String) : Except Int Int :=
  let ret : Int :=
    match storeEnumTable off with
    | some table => sysfs_match_string table buf
    | none => -EINVAL
  if ret < 0 then
    match kstrtol buf with
    | Except.error e => Except.error e
    | Except.ok longVal => Except.ok (wrap32 longVal)
  else Except.ok (wrap32 ret)

/-- The `union power_supply_propval`, with every member made explicit
(on the read path the driver fills exactly the member the property's
kind calls for, so no aliasing is involved there; the write path's
aliasing is modelled where it happens, in `power_supply_store_decode`,
by the `wrap32` of the 32-bit `intval` store). -/
structure PropVal where
  intval : Int
  int64val : Int
  strval : String
deriving DecidableEq

/-- A power supply: the fields of `psy->desc` consulted by this file
(`name`, `type`, `properties`, `num_properties`,
`property_is_writeable`) plus the external getter and setter.  The
getter returns the C pair of return code and filled-in propval. -/
structure PowerSupplyDev where
  desc_name : String
  desc_type : Int
  desc_properties : List PSProp
  property_is_writeable : Option (PSProp → Int)
  get_property : PSProp → Int × PropVal
  set_property : PSProp → Int → Int

/-- Outcome of a read: a rendered string, a negative error code, or an
out-of-bounds enum-table access (undefined behaviour in the C). -/
inductive CResult (α : Type) where
  | ok (a : α)
  | err (e : Int)
  | oob
deriving DecidableEq

/-- Decimal digit characters. -/
def digitChar : Nat → Char
  | 0 => '0'
  | 1 => '1'
  | 2 => '2'
  | 3 => '3'
  | 4 => '4'
  | 5 => '5'
  | 6 => '6'
  | 7 => '7'
  | 8 => '8'
  | 9 => '9'
  | _ => '*'

/-- Fuel-driven decimal rendering of a natural number, most significant
digit first (the model of `sprintf`'s base-10 conversion). -/
def natToDecimalAux : Nat → Nat → List Char
  | 0, _ => []
  | fuel + 1, n =>
      if n < 10 then [digitChar n]
      else natToDecimalAux fuel (n / 10) ++ [digitChar (n % 10)]

/-- Decimal rendering of a natural number. -/
def natToDecimal (n : Nat) : String :=
  String.mk (natToDecimalAux (n + 1) n)

/-- Decimal rendering of an integer: the model of `sprintf "%d"` and
`sprintf "%lld"`. -/
def intToDecimal (i : Int) : String :=
  if i < 0 then String.mk ('-' :: (natToDecimal i.natAbs).data)
  else natToDecimal i.toNat

/-- Enum rendering: the C expression `sprintf(buf, "%s\n", table[v])`.
An index outside the table is an out-of-bounds array access, reported
as `CResult.oob`; the C performs no bounds check. -/
def enumRender (table : List String) (i : Int) : CResult String :=
  if h : 0 ≤ i ∧ i.toNat < table.length then
    CResult.ok (table.get ⟨i.toNat, h.2⟩ ++ "\n")
  else CResult.oob

/-- The rendering dispatch of `power_supply_show_property` (the
`if`/`else if` chain over `off`): enum tables for the seven categorical
properties, `%s` for the string properties at `off >=
POWER_SUPPLY_PROP_MODEL_NAME`, `%lld` of `int64val` for
`charge_counter_ext` and `%d` of `intval` otherwise. -/
def psRender (off : PSProp) (value : PropVal) : CResult String :=
  match off with
  | .status => enumRender power_supply_status_text value.intval
  | .charge_type => enumRender power_supply_charge_type_text value.intval
  | .health => enumRender power_supply_health_text value.intval
  | .technology => enumRender power_supply_technology_text value.intval
  | .capacity_level => enumRender power_supply_capacity_level_text value.intval
  | .type => enumRender power_supply_type_text value.intval
  | .scope => enumRender power_supply_scope_text value.intval
  | .model_name => CResult.ok (value.strval ++ "\n")
  | .manufacturer => CResult.ok (value.strval ++ "\n")
  | .serial_number => CResult.ok (value.strval ++ "\n")
  | .charge_counter_ext => CResult.ok (intToDecimal value.int64val ++ "\n")
  | _ => CResult.ok (intToDecimal value.intval ++ "\n")

/-- `power_supply_show_property`: the synthetic `type` property reads
`psy->desc->type` directly; every other property goes through the
device getter, whose negative return codes are propagated unchanged. -/
def power_supply_show_property (psy : PowerSupplyDev) (off : PSProp) :
    CResult String :=
  if off = PSProp.type then
    psRender off { intval := psy.desc_type, int64val := 0, strval := "" }
  else
    let r := psy.get_property off
    if r.1 < 0 then CResult.err r.1 else psRender off r.2

/-- `power_supply_store_property` end to end: decode, then the device
setter; a negative setter return is propagated, success returns
`count`. -/
def power_supply_store_property (psy : PowerSupplyDev) (off : PSProp)
    (buf : String) (count : Nat) : Except Int Nat :=
  match power_supply_store_decode off buf with
  | Except.error e => Except.error e
  | Except.ok v =>
      let ret := psy.set_property off v
      if ret < 0 then Except.error ret else Except.ok count

/-- `S_IRUSR` (0400). -/
def S_IRUSR : Nat := 256

/-- `S_IRGRP` (0040). -/
def S_IRGRP : Nat := 32

/-- `S_IROTH` (0004). -/
def S_IROTH : Nat := 4

/-- `S_IWUSR` (0200). -/
def S_IWUSR : Nat := 128

/-- The initial mode of `power_supply_attr_is_visible`:
`S_IRUSR | S_IRGRP | S_IROTH`, i.e. 0444, read-only. -/
def readMode : Nat := S_IRUSR + S_IRGRP + S_IROTH

/-- The `for` loop of `power_supply_attr_is_visible`: return at the
first supported property equal to `attrno`, adding `S_IWUSR` exactly
when `property_is_writeable` exists and returns a positive value;
falling off the list yields 0. -/
def visLoop (psy : PowerSupplyDev) (attrno : PSProp) :
    List PSProp → Nat
  | [] => 0
  | p :: rest =>
      if p = attrno then
        match psy.property_is_writeable with
        | some f => if 0 < f p then readMode + S_IWUSR else readMode
        | none => readMode
      else visLoop psy attrno rest

/-- `power_supply_attr_is_visible`: `POWER_SUPPLY_PROP_TYPE` is always
read-only; every other attribute is looked up in the device's supported
property list. -/
def power_supply_attr_is_visible (psy : PowerSupplyDev) (attrno : PSProp) :
    Nat :=
  if attrno = PSProp.type then readMode
  else visLoop psy attrno psy.desc_properties

/-- The attribute name of each property, as written in the
`POWER_SUPPLY_ATTR(name)` table. -/
def attrName : PSProp → String
  | .status => "status"
  | .charge_type => "charge_type"
  | .health => "health"
  | .present => "present"
  | .technology => "technology"
  | .capacity => "capacity"
  | .capacity_level => "capacity_level"
  | .voltage_now => "voltage_now"
  | .type => "type"
  | .scope => "scope"
  | .charge_counter_ext => "charge_counter_ext"
  | .model_name => "model_name"
  | .manufacturer => "manufacturer"
  | .serial_number => "serial_number"

/-- `kstruprdup`: upper-cased copy of a string (allocation failure not
modelled; the claims do not concern ENOMEM from this helper). -/
def kstruprdup (s : String) : String :=
  String.mk (s.data.map upperAscii)

/-- The uevent environment: accumulated variables and bytes used
against a fixed byte budget (`kobj_uevent_env`'s buffer). -/
structure UeventEnv where
  budget : Nat
  vars : List String
  buflen : Nat
deriving DecidableEq

/-- Modelled from the spec: `add_uevent_var` is not part of this
repository's source; the spec prescribes a "fixed maximum total byte
budget" for the accumulated sequence, and the error-propagation policy
(spec section 7: every failure other than NoData/DeviceAbsent reaches
the caller) together with this file's `if (ret) goto out;` shows the
append signals an over-budget pair through a nonzero return, here
`-ENOMEM`.  Each entry costs its length plus one terminating NUL. -/
def add_uevent_var (env : UeventEnv) (entry : String) : Except Int UeventEnv :=
  if env.buflen + entry.length + 1 ≤ env.budget then
    Except.ok { env with
      vars := env.vars ++ [entry],
      buflen := env.buflen + entry.length + 1 }
  else Except.error (-ENOMEM)

/-- The `strchr(prop_buf, '\n'); *line = 0` truncation: keep the
characters before the first newline. -/
def truncAtNl (s : String) : String :=
  String.mk (s.data.takeWhile (fun c => c != '\n'))

/-- The property loop of `power_supply_uevent`: read each supported
property; `-ENODEV` and `-ENODATA` skip the property, any other
failure aborts; otherwise append `POWER_SUPPLY_<NAME>=<value>` and
abort on an append failure. -/
def uevent_loop (psy : PowerSupplyDev) :
    UeventEnv → List PSProp → CResult UeventEnv
  | env, [] => CResult.ok env
  | env, p :: rest =>
      match power_supply_show_property psy p with
      | CResult.oob => CResult.oob
      | CResult.err e =>
          if e = -ENODEV ∨ e = -ENODATA then uevent_loop psy env rest
          else CResult.err e
      | CResult.ok s =>
          let entry :=
            "POWER_SUPPLY_" ++ kstruprdup (attrName p) ++ "=" ++ truncAtNl s
          match add_uevent_var env entry with
          | Except.error e => CResult.err e
          | Except.ok env2 => uevent_loop psy env2 rest

/-- `power_supply_uevent`: the leading `POWER_SUPPLY_NAME` pair, then
the per-property loop; the result is the accumulated variable list. -/
def power_supply_uevent (psy : PowerSupplyDev) (budget : Nat) :
    CResult (List String) :=
  match add_uevent_var { budget := budget, vars := [], buflen := 0 }
      ("POWER_SUPPLY_NAME=" ++ psy.desc_name) with
  | Except.error e => CResult.err e
  | Except.ok env =>
      match uevent_loop psy env psy.desc_properties with
      | CResult.ok env2 => CResult.ok env2.vars
      | CResult.err e => CResult.err e
      | CResult.oob => CResult.oob

/-- The value kind of each property, as grouped by the dispatch of
`power_supply_show_property` (the spec's `ValueKind`). -/
inductive ValueKind where
  | integer
  | integer64
  | enumText (table : List String)
  | text
deriving DecidableEq

/-- The kind of each modelled property. -/
def kindOf : PSProp → ValueKind
  | .status => ValueKind.enumText power_supply_status_text
  | .charge_type => ValueKind.enumText power_supply_charge_type_text
  | .health => ValueKind.enumText power_supply_health_text
  | .technology => ValueKind.enumText power_supply_technology_text
  | .capacity_level => ValueKind.enumText power_supply_capacity_level_text
  | .type => ValueKind.enumText power_supply_type_text
  | .scope => ValueKind.enumText power_supply_scope_text
  | .model_name => ValueKind.text
  | .manufacturer => ValueKind.text
  | .serial_number => ValueKind.text
  | .charge_counter_ext => ValueKind.integer64
  | _ => ValueKind.integer

/-- A propval holding only an int value. -/
def pv (i : Int) : PropVal :=
  { intval := i, int64val := 0, strval := "" }

/-- A healthy device supporting only `present`, which reads as 1. -/
def devOkPresent : PowerSupplyDev :=
  { desc_name := "battery0"
    desc_type := 1
    desc_properties := [PSProp.present]
    property_is_writeable := none
    get_property := fun _ => (0, pv 1)
    set_property := fun _ _ => 0 }

/-- A device whose getter always fails with `-EAGAIN`. -/
def devEagain : PowerSupplyDev :=
  { devOkPresent with get_property := fun _ => (-EAGAIN, pv 0) }

/-- A device whose getter always fails with `-ENODEV`. -/
def devEnodev : PowerSupplyDev :=
  { devOkPresent with get_property := fun _ => (-ENODEV, pv 0) }

/-- A device supporting `status` whose getter reports the out-of-range
enum ordinal 6 (the status table has entries 0..5). -/
def devStatus6 : PowerSupplyDev :=
  { devOkPresent with
    desc_properties := [PSProp.status]
    get_property := fun _ => (0, pv 6) }

/-- A device supporting `status`, reporting ordinal 1 ("Charging"),
with a writability predicate accepting everything. -/
def devWritable : PowerSupplyDev :=
  { devOkPresent with
    desc_properties := [PSProp.status]
    property_is_writeable := some (fun _ => 1)
    get_property := fun _ => (0, pv 1) }

/-- A device supporting `model_name` whose setter accepts anything. -/
def devText : PowerSupplyDev :=
  { devOkPresent with desc_properties := [PSProp.model_name] }

/-- A uevent env with the leading name pair of `devOkPresent` already
recorded: 28 bytes used out of a 30-byte budget. -/
def env28 : UeventEnv :=
  { budget := 30, vars := ["POWER_SUPPLY_NAME=battery0"], buflen := 28 }

/-! ### Arithmetic and string helper lemmas -/

theorem wrap32_eq (n : Int) (h1 : -(2 ^ 31) ≤ n) (h2 : n < 2 ^ 31) :
    wrap32 n = n := by
  unfold wrap32
  have h3 : (0 : Int) ≤ n + 2 ^ 31 := by omega
  have h4 : n + 2 ^ 31 < 2 ^ 32 := by omega
  rw [Int.emod_eq_of_lt h3 h4]
  omega

theorem parseDigitsAux_append (l1 l2 : List Char) (acc : Nat) :
    parseDigitsAux (l1 ++ l2) acc =
      match parseDigitsAux l1 acc with
      | some a => parseDigitsAux l2 a
      | none => none := by
  induction l1 generalizing acc with
  | nil => rfl
  | cons c cs ih =>
      simp only [List.cons_append, parseDigitsAux]
      cases digitVal c with
      | some d => exact ih _
      | none => rfl

theorem digitVal_digitChar (d : Nat) (h : d < 10) :
    digitVal (digitChar d) = some d := by
  interval_cases d <;> decide

theorem digitChar_not_sign (d : Nat) (h : d < 10) :
    digitChar d ≠ '-' ∧ digitChar d ≠ '+' := by
  interval_cases d <;> decide

theorem parse_natToDecimalAux (fuel : Nat) :
    ∀ n, n < fuel → parseDigitsAux (natToDecimalAux fuel n) 0 = some n := by
  induction fuel with
  | zero => intro n h; omega
  | succ f ih =>
      intro n h
      by_cases h10 : n < 10
      · simp [natToDecimalAux, h10, parseDigitsAux, digitVal_digitChar n h10]
      · have hd : n / 10 < f := by
          have := Nat.div_lt_self (by omega : 0 < n) (by omega : 1 < 10)
          omega
        simp only [natToDecimalAux, if_neg h10]
        rw [parseDigitsAux_append, ih (n / 10) hd]
        have hm : n % 10 < 10 := Nat.mod_lt _ (by omega)
        simp [parseDigitsAux, digitVal_digitChar _ hm]
        omega

theorem natToDecimalAux_ne_nil (fuel n : Nat) (h : n < fuel) :
    natToDecimalAux fuel n ≠ [] := by
  cases fuel with
  | zero => omega
  | succ f =>
      by_cases h10 : n < 10
      · simp [natToDecimalAux, h10]
      · simp only [natToDecimalAux, if_neg h10]
        intro hc
        exact absurd (List.append_eq_nil.mp hc).2 (by simp)

theorem natToDecimalAux_digits (fuel : Nat) :
    ∀ n c, c ∈ natToDecimalAux fuel n → ∃ d, d < 10 ∧ c = digitChar d := by
  induction fuel with
  | zero => intro n c hc; simp [natToDecimalAux] at hc
  | succ f ih =>
      intro n c hc
      by_cases h10 : n < 10
      · simp [natToDecimalAux, h10] at hc
        exact ⟨n, h10, hc⟩
      · simp only [natToDecimalAux, if_neg h10, List.mem_append,
          List.mem_singleton] at hc
        rcases hc with hc | hc
        · exact ih _ _ hc
        · exact ⟨n % 10, Nat.mod_lt _ (by omega), hc⟩

theorem splitSign_digits (cs : List Char)
    (h : ∀ c ∈ cs, ∃ d, d < 10 ∧ c = digitChar d) :
    splitSign cs = (false, cs) := by
  cases cs with
  | nil => rfl
  | cons c rest =>
      obtain ⟨d, hd, rfl⟩ := h c (by simp)
      obtain ⟨h1, h2⟩ := digitChar_not_sign d hd
      simp [splitSign, h1, h2]

theorem string_data_append (a b : String) : (a ++ b).data = a.data ++ b.data :=
  rfl

theorem dropTrailingNl_append_nl (s : String) :
    dropTrailingNl (s ++ "\n") = s := by
  unfold dropTrailingNl
  rw [string_data_append]
  show (match (s.data ++ ['\n']).reverse with
    | c :: rest => if c = '\n' then String.mk rest.reverse else s ++ "\n"
    | [] => s ++ "\n") = s
  rw [List.reverse_append]
  simp

theorem natToDecimal_data (n : Nat) :
    (natToDecimal n).data = natToDecimalAux (n + 1) n := rfl

theorem parse_natToDecimal (n : Nat) :
    parseDigitsAux (natToDecimal n).data 0 = some n := by
  rw [natToDecimal_data]
  exact parse_natToDecimalAux (n + 1) n (by omega)

theorem kstrtolCore_digits (ds : List Char) (n : Nat)
    (hne : ds ≠ []) (hp : parseDigitsAux ds 0 = some n)
    (hr : (n : Int) < 2 ^ 63) :
    kstrtolCore false ds = Except.ok (n : Int) := by
  cases ds with
  | nil => exact absurd rfl hne
  | cons c rest =>
      simp only [kstrtolCore, hp, Bool.false_eq_true, if_false]
      rw [if_pos ⟨le_trans (by norm_num) (Int.natCast_nonneg n), hr⟩]

theorem kstrtolCore_neg_digits (ds : List Char) (n : Nat)
    (hne : ds ≠ []) (hp : parseDigitsAux ds 0 = some n)
    (hr : (n : Int) ≤ 2 ^ 63) (hpos : 0 < n) :
    kstrtolCore true ds = Except.ok (-(n : Int)) := by
  cases ds with
  | nil => exact absurd rfl hne
  | cons c rest =>
      simp only [kstrtolCore, hp, if_true]
      rw [if_pos]
      constructor
      · omega
      · have : (0 : Int) < (n : Int) := by exact_mod_cast hpos
        omega

theorem intToDecimal_nonneg (i : Int) (h : 0 ≤ i) :
    intToDecimal i = natToDecimal i.toNat := by
  unfold intToDecimal
  rw [if_neg (by omega)]

theorem kstrtol_intToDecimal (v : Int)
    (h1 : -(2 ^ 63) ≤ v) (h2 : v < 2 ^ 63) :
    kstrtol (intToDecimal v ++ "\n") = Except.ok v := by
  have hne := natToDecimalAux_ne_nil (v.natAbs + 1) v.natAbs (by omega)
  have hdig := natToDecimalAux_digits (v.natAbs + 1) v.natAbs
  have hp := parse_natToDecimal v.natAbs
  by_cases hneg : v < 0
  · have hd : (dropTrailingNl (intToDecimal v ++ "\n")).data =
        '-' :: (natToDecimal v.natAbs).data := by
      rw [dropTrailingNl_append_nl]
      unfold intToDecimal
      rw [if_pos hneg]
    unfold kstrtol
    rw [hd]
    have hsplit : splitSign ('-' :: (natToDecimal v.natAbs).data) =
        (true, (natToDecimal v.natAbs).data) := by
      simp [splitSign]
    rw [hsplit]
    have habs : ((v.natAbs : Int)) ≤ 2 ^ 63 := by omega
    have hres := kstrtolCore_neg_digits (natToDecimal v.natAbs).data v.natAbs
      (by rw [natToDecimal_data]; exact hne) hp habs (by omega)
    rw [hres]
    congr 1
    omega
  · have hd : (dropTrailingNl (intToDecimal v ++ "\n")).data =
        (natToDecimal v.toNat).data := by
      rw [dropTrailingNl_append_nl, intToDecimal_nonneg v (by omega)]
    unfold kstrtol
    rw [hd]
    have htn : v.toNat = v.natAbs := by omega
    rw [natToDecimal_data, htn,
      splitSign_digits (natToDecimalAux (v.natAbs + 1) v.natAbs) hdig]
    have hres := kstrtolCore_digits (natToDecimalAux (v.natAbs + 1) v.natAbs)
      v.natAbs hne (by rw [natToDecimal_data] at hp; exact hp) (by omega)
    rw [hres]
    congr 1
    omega

/-! ### Enum-table match lemmas -/

theorem findMatchIdx_lt (t : String) :
    ∀ (L : List String) (i : Nat), findMatchIdx t L = some i → i < L.length := by
  intro L
  induction L with
  | nil => intro i h; simp [findMatchIdx] at h
  | cons e rest ih =>
      intro i h
      by_cases he : strCaseEq e t
      · simp [findMatchIdx, he] at h
        simp only [List.length_cons]
        omega
      · simp only [findMatchIdx, if_neg he] at h
        cases hr : findMatchIdx t rest with
        | none => rw [hr] at h; simp at h
        | some j =>
            rw [hr] at h
            simp at h
            have := ih j hr
            simp only [List.length_cons]
            omega

theorem findMatchIdx_of_nodup (t : String) (L : List String)
    (hnd : (L.map lowerStr).Nodup) :
    ∀ (i : Nat) (h : i < L.length),
      strCaseEq (L.get ⟨i, h⟩) t = true → findMatchIdx t L = some i := by
  induction L with
  | nil => intro i h; simp at h
  | cons e rest ih =>
      intro i h hm
      cases i with
      | zero =>
          have he : strCaseEq e t = true := hm
          simp [findMatchIdx, he]
      | succ j =>
          have hj : j < rest.length := by simpa using h
          have hnds := List.nodup_cons.mp hnd
          have hrest : strCaseEq (rest.get ⟨j, hj⟩) t = true := hm
          by_cases he : strCaseEq e t
          · exfalso
            apply hnds.1
            have h1 : lowerStr e = lowerStr t := by
              simpa [strCaseEq] using he
            have h2 : lowerStr (rest.get ⟨j, hj⟩) = lowerStr t := by
              simpa [strCaseEq] using hrest
            rw [h1, ← h2]
            exact List.mem_map_of_mem _ (rest.get_mem _ _)
          · simp [findMatchIdx, if_neg he, ih hnds.2 j hj hrest]

/-! ### Store-path shape lemmas -/

theorem storeEnumTable_len (p : PSProp) (table : List String)
    (h : storeEnumTable p = some table) : table.length ≤ 9 := by
  cases p <;> simp [storeEnumTable] at h <;> subst h <;> decide

theorem storeEnumTable_nodup (p : PSProp) (table : List String)
    (h : storeEnumTable p = some table) : (table.map lowerStr).Nodup := by
  cases p <;> simp [storeEnumTable] at h <;> subst h <;> decide

theorem power_supply_store_decode_enum (p : PSProp) (table : List String)
    (hpt : storeEnumTable p = some table) (t : String) :
    power_supply_store_decode p t =
      match findMatchIdx (dropTrailingNl t) table with
      | some i => Except.ok (wrap32 (i : Int))
      | none =>
          match kstrtol t with
          | Except.error e => Except.error e
          | Except.ok v => Except.ok (wrap32 v) := by
  unfold power_supply_store_decode sysfs_match_string
  rw [hpt]
  cases hf : findMatchIdx (dropTrailingNl t) table with
  | some i =>
      have : ¬ ((i : Int) < 0) := by
        have := Int.natCast_nonneg i
        omega
      simp [hf, this]
  | none =>
      have : (-EINVAL : Int) < 0 := by norm_num [EINVAL]
      simp [hf, this]

theorem power_supply_store_decode_default (p : PSProp)
    (hpt : storeEnumTable p = none) (t : String) :
    power_supply_store_decode p t =
      match kstrtol t with
      | Except.error e => Except.error e
      | Except.ok v => Except.ok (wrap32 v) := by
  unfold power_supply_store_decode
  rw [hpt]
  have : (-EINVAL : Int) < 0 := by norm_num [EINVAL]
  simp [this]

/-! ### Visibility lemmas -/

theorem visLoop_not_mem (psy : PowerSupplyDev) (attrno : PSProp) :
    ∀ l : List PSProp, attrno ∉ l → visLoop psy attrno l = 0 := by
  intro l
  induction l with
  | nil => intro; rfl
  | cons p rest ih =>
      intro hmem
      have hne : p ≠ attrno := fun hc => hmem (hc ▸ List.mem_cons_self p rest)
      have hrest : attrno ∉ rest := fun hc => hmem (List.mem_cons_of_mem p hc)
      simp only [visLoop, if_neg hne]
      exact ih hrest

theorem visLoop_mem (psy : PowerSupplyDev) (attrno : PSProp) :
    ∀ l : List PSProp, attrno ∈ l →
      visLoop psy attrno l =
        match psy.property_is_writeable with
        | some f => if 0 < f attrno then readMode + S_IWUSR else readMode
        | none => readMode := by
  intro l
  induction l with
  | nil => intro h; simp at h
  | cons p rest ih =>
      intro hmem
      by_cases hp : p = attrno
      · subst hp
        simp [visLoop]
      · have hrest : attrno ∈ rest := by
          cases List.mem_cons.mp hmem with
          | inl h => exact absurd h.symm hp
          | inr h => exact h
        simp only [visLoop, if_neg hp]
        exact ih hrest

theorem visLoop_mem_none (psy : PowerSupplyDev) (p : PSProp)
    (l : List PSProp) (hmem : p ∈ l)
    (hw : psy.property_is_writeable = none) :
    visLoop psy p l = readMode := by
  rw [visLoop_mem psy p l hmem, hw]

theorem visLoop_mem_pos (psy : PowerSupplyDev) (p : PSProp)
    (l : List PSProp) (hmem : p ∈ l) (f : PSProp → Int)
    (hw : psy.property_is_writeable = some f) (hfp : 0 < f p) :
    visLoop psy p l = readMode + S_IWUSR := by
  rw [visLoop_mem psy p l hmem, hw]
  show (if 0 < f p then readMode + S_IWUSR else readMode) =
    readMode + S_IWUSR
  rw [if_pos hfp]

theorem visLoop_mem_nonpos (psy : PowerSupplyDev) (p : PSProp)
    (l : List PSProp) (hmem : p ∈ l) (f : PSProp → Int)
    (hw : psy.property_is_writeable = some f) (hfp : ¬ 0 < f p) :
    visLoop psy p l = readMode := by
  rw [visLoop_mem psy p l hmem, hw]
  show (if 0 < f p then readMode + S_IWUSR else readMode) = readMode
  rw [if_neg hfp]

/-! ### Uevent loop lemmas -/

theorem show_property_getter_err (psy : PowerSupplyDev) (p : PSProp) (e : Int)
    (hp : p ≠ PSProp.type) (hget : (psy.get_property p).1 = e)
    (hlt : e < 0) :
    power_supply_show_property psy p = CResult.err e := by
  simp only [power_supply_show_property, if_neg hp]
  rw [hget, if_pos hlt]

theorem uevent_loop_skip (psy : PowerSupplyDev) (env : UeventEnv)
    (p : PSProp) (rest : List PSProp) (e : Int)
    (hp : p ≠ PSProp.type) (hget : (psy.get_property p).1 = e) (hlt : e < 0)
    (hskip : e = -ENODEV ∨ e = -ENODATA) :
    uevent_loop psy env (p :: rest) = uevent_loop psy env rest := by
  have hshow := show_property_getter_err psy p e hp hget hlt
  simp only [uevent_loop, hshow]
  rw [if_pos hskip]

theorem uevent_loop_abort (psy : PowerSupplyDev) (env : UeventEnv)
    (p : PSProp) (rest : List PSProp) (e : Int)
    (hp : p ≠ PSProp.type) (hget : (psy.get_property p).1 = e) (hlt : e < 0)
    (h1 : e ≠ -ENODEV) (h2 : e ≠ -ENODATA) :
    uevent_loop psy env (p :: rest) = CResult.err e := by
  have hshow := show_property_getter_err psy p e hp hget hlt
  simp only [uevent_loop, hshow]
  have : ¬ (e = -ENODEV ∨ e = -ENODATA) := by
    intro hc
    cases hc with
    | inl h => exact h1 h
    | inr h => exact h2 h
  rw [if_neg this]

theorem uevent_loop_append_fail (psy : PowerSupplyDev) (env : UeventEnv)
    (p : PSProp) (rest : List PSProp) (s : String)
    (hshow : power_supply_show_property psy p = CResult.ok s)
    (hfail : add_uevent_var env
        ("POWER_SUPPLY_" ++ kstruprdup (attrName p) ++ "=" ++ truncAtNl s) =
      Except.error (-ENOMEM)) :
    uevent_loop psy env (p :: rest) = CResult.err (-ENOMEM) := by
  simp only [uevent_loop, hshow, hfail]

theorem add_uevent_var_over (env : UeventEnv) (entry : String)
    (h : env.budget < env.buflen + entry.length + 1) :
    add_uevent_var env entry = Except.error (-ENOMEM) := by
  unfold add_uevent_var
  rw [if_neg (by omega)]

theorem uevent_loop_vars_shape (psy : PowerSupplyDev) :
    ∀ (l : List PSProp) (env env2 : UeventEnv),
      uevent_loop psy env l = CResult.ok env2 →
      ∃ suffix : List String,
        env2.vars = env.vars ++ suffix ∧
        ∀ v ∈ suffix, ∃ p, p ∈ l ∧ ∃ val : String,
          v = "POWER_SUPPLY_" ++ kstruprdup (attrName p) ++ "=" ++ val := by
  intro l
  induction l with
  | nil =>
      intro env env2 h
      have henv : env = env2 := by
        simpa [uevent_loop] using h
      subst henv
      exact ⟨[], by simp⟩
  | cons p rest ih =>
      intro env env2 h
      cases hshow : power_supply_show_property psy p with
      | oob =>
          simp only [uevent_loop, hshow] at h
          exact CResult.noConfusion h
      | err e =>
          simp only [uevent_loop, hshow] at h
          by_cases hskip : e = -ENODEV ∨ e = -ENODATA
          · rw [if_pos hskip] at h
            obtain ⟨suffix, hv, hall⟩ := ih env env2 h
            exact ⟨suffix, hv, fun v hv2 => by
              obtain ⟨q, hq, val, hval⟩ := hall v hv2
              exact ⟨q, List.mem_cons_of_mem p hq, val, hval⟩⟩
          · rw [if_neg hskip] at h
            simp at h
      | ok s =>
          simp only [uevent_loop, hshow] at h
          cases hadd : add_uevent_var env
              ("POWER_SUPPLY_" ++ kstruprdup (attrName p) ++ "=" ++
                truncAtNl s) with
          | error e =>
              simp only [hadd] at h
              exact CResult.noConfusion h
          | ok env1 =>
              simp only [hadd] at h
              obtain ⟨suffix, hv, hall⟩ := ih env1 env2 h
              have henv1 : env1.vars = env.vars ++
                  ["POWER_SUPPLY_" ++ kstruprdup (attrName p) ++ "=" ++
                    truncAtNl s] := by
                unfold add_uevent_var at hadd
                by_cases hb : env.buflen +
                    ("POWER_SUPPLY_" ++ kstruprdup (attrName p) ++ "=" ++
                      truncAtNl s).length + 1 ≤ env.budget
                · rw [if_pos hb] at hadd
                  cases hadd
                  rfl
                · rw [if_neg hb] at hadd
                  cases hadd
              refine ⟨("POWER_SUPPLY_" ++ kstruprdup (attrName p) ++ "=" ++
                truncAtNl s) :: suffix, ?_, ?_⟩
              · rw [hv, henv1]
                simp
              · intro v hv2
                cases List.mem_cons.mp hv2 with
                | inl hveq =>
                    exact ⟨p, List.mem_cons_self p rest, truncAtNl s, hveq⟩
                | inr hvs =>
                    obtain ⟨q, hq, val, hval⟩ := hall v hvs
                    exact ⟨q, List.mem_cons_of_mem p hq, val, hval⟩

/-! ### Claim theorems -/

/-- C4: for every device, the synthetic Type attribute's visibility is
read-only (0444), whether or not Type appears in the device's supported
property list, and a read of Type renders the static `desc->type` class
field directly — the result does not depend on the device getter at
all. -/
theorem claim_C4 (psy : PowerSupplyDev) :
    power_supply_attr_is_visible psy PSProp.type = readMode ∧
    power_supply_show_property psy PSProp.type =
      enumRender power_supply_type_text psy.desc_type ∧
    ∀ g : PSProp → Int × PropVal,
      power_supply_show_property { psy with get_property := g } PSProp.type =
        power_supply_show_property psy PSProp.type := by
  refine ⟨rfl, rfl, fun g => rfl⟩

/-- C5: for every device and property other than Type, an unsupported
property has visibility 0 (not exposed); a supported one is either
read-only 0444 or read-write 0644, and it is read-write exactly when
the device supplies a writability predicate returning a positive value
for it. -/
theorem claim_C5 (psy : PowerSupplyDev) (p : PSProp)
    (hp : p ≠ PSProp.type) :
    (p ∉ psy.desc_properties → power_supply_attr_is_visible psy p = 0) ∧
    (p ∈ psy.desc_properties →
      (power_supply_attr_is_visible psy p = readMode ∨
       power_supply_attr_is_visible psy p = readMode + S_IWUSR) ∧
      (power_supply_attr_is_visible psy p = readMode + S_IWUSR ↔
        ∃ f, psy.property_is_writeable = some f ∧ 0 < f p)) := by
  have hvis : power_supply_attr_is_visible psy p =
      visLoop psy p psy.desc_properties := by
    simp [power_supply_attr_is_visible, hp]
  have hdistinct : readMode ≠ readMode + S_IWUSR := by decide
  constructor
  · intro hmem
    rw [hvis]
    exact visLoop_not_mem psy p _ hmem
  · intro hmem
    cases hw : psy.property_is_writeable with
    | none =>
        have hro := visLoop_mem_none psy p _ hmem hw
        rw [hvis, hro]
        refine ⟨Or.inl rfl, ?_, ?_⟩
        · intro hc
          exact absurd hc hdistinct
        · rintro ⟨f, hf, _⟩
          exact Option.noConfusion hf
    | some f =>
        by_cases hfp : 0 < f p
        · have hrw := visLoop_mem_pos psy p _ hmem f hw hfp
          rw [hvis, hrw]
          exact ⟨Or.inr rfl, fun _ => ⟨f, rfl, hfp⟩, fun _ => rfl⟩
        · have hro := visLoop_mem_nonpos psy p _ hmem f hw hfp
          rw [hvis, hro]
          refine ⟨Or.inl rfl, ?_, ?_⟩
          · intro hc
            exact absurd hc hdistinct
          · rintro ⟨g, hg, hgp⟩
            cases Option.some.inj hg
            exact absurd hgp hfp

/-- C5 witness: on a concrete device supporting only `present` with no
writability predicate, an unsupported property is invisible and the
supported one is read-only or read-write. -/
theorem claim_C5_witness :
    power_supply_attr_is_visible devOkPresent PSProp.capacity = 0 ∧
    (power_supply_attr_is_visible devOkPresent PSProp.present = readMode ∨
     power_supply_attr_is_visible devOkPresent PSProp.present =
       readMode + S_IWUSR) :=
  ⟨(claim_C5 devOkPresent PSProp.capacity (by decide)).1 (by decide),
   ((claim_C5 devOkPresent PSProp.present (by decide)).2 (by decide)).1⟩

/-- C10: for every device and supported non-Type property, write
permission appears exactly when the device supplies a writability
predicate returning a strictly positive value; a non-positive return or
an absent predicate leaves the attribute read-only. -/
theorem claim_C10 (psy : PowerSupplyDev) (p : PSProp)
    (hp : p ≠ PSProp.type) (hmem : p ∈ psy.desc_properties) :
    ((∃ f, psy.property_is_writeable = some f ∧ 0 < f p) →
      power_supply_attr_is_visible psy p = readMode + S_IWUSR) ∧
    (∀ f, psy.property_is_writeable = some f → f p ≤ 0 →
      power_supply_attr_is_visible psy p = readMode) ∧
    (psy.property_is_writeable = none →
      power_supply_attr_is_visible psy p = readMode) := by
  have hvis : power_supply_attr_is_visible psy p =
      visLoop psy p psy.desc_properties := by
    simp [power_supply_attr_is_visible, hp]
  refine ⟨?_, ?_, ?_⟩
  · rintro ⟨f, hf, hfp⟩
    rw [hvis]
    exact visLoop_mem_pos psy p _ hmem f hf hfp
  · intro f hf hfp
    rw [hvis]
    exact visLoop_mem_nonpos psy p _ hmem f hf (by omega)
  · intro hf
    rw [hvis]
    exact visLoop_mem_none psy p _ hmem hf

/-- C10 witness: on a concrete device whose predicate returns 1 for
`status`, the attribute mode is 0644. -/
theorem claim_C10_witness :
    power_supply_attr_is_visible devWritable PSProp.status =
      readMode + S_IWUSR :=
  (claim_C10 devWritable PSProp.status (by decide) (by decide)).1
    ⟨fun _ => 1, rfl, by decide⟩

/-- C1: for every enum-kind property of the store switch (status,
charge_type, health, technology, capacity_level, scope) and every input
text, decode first tries a case-insensitive in-order table match and
returns the matching ordinal; with no match it accepts a base-10
optionally-signed integer as the raw ordinal (stored through the C
`int`, exact on the whole 32-bit range — no table-range validation);
if the parse fails too the write fails with that parse error.  A
display string in any letter case decodes to the same ordinal as its
decimal ordinal string. -/
theorem claim_C1 (p : PSProp) (table : List String)
    (hpt : storeEnumTable p = some table) (t : String) :
    (∀ i : Nat, findMatchIdx (dropTrailingNl t) table = some i →
      power_supply_store_decode p t = Except.ok (i : Int)) ∧
    (findMatchIdx (dropTrailingNl t) table = none →
      ∀ v : Int, kstrtol t = Except.ok v →
        power_supply_store_decode p t = Except.ok (wrap32 v) ∧
        (-(2 ^ 31) ≤ v → v < 2 ^ 31 → wrap32 v = v)) ∧
    (findMatchIdx (dropTrailingNl t) table = none →
      ∀ e : Int, kstrtol t = Except.error e →
        power_supply_store_decode p t = Except.error e) ∧
    (∀ (i : Nat) (h : i < table.length),
      strCaseEq (table.get ⟨i, h⟩) (dropTrailingNl t) = true →
        power_supply_store_decode p t = Except.ok (i : Int) ∧
        power_supply_store_decode p (natToDecimal i) = Except.ok (i : Int)) := by
  have hshape := power_supply_store_decode_enum p table hpt t
  have hlen := storeEnumTable_len p table hpt
  have hnd := storeEnumTable_nodup p table hpt
  refine ⟨?_, ?_, ?_, ?_⟩
  · intro i hfind
    have hi : i < table.length := findMatchIdx_lt _ _ _ hfind
    rw [hshape, hfind]
    show Except.ok (wrap32 (i : Int)) = Except.ok (i : Int)
    rw [wrap32_eq (i : Int) (by omega) (by push_cast; omega)]
  · intro hfind v hv
    refine ⟨?_, fun h1 h2 => wrap32_eq v h1 h2⟩
    rw [hshape, hfind, hv]
  · intro hfind e he
    rw [hshape, hfind, he]
  · intro i h hm
    have hfind := findMatchIdx_of_nodup (dropTrailingNl t) table hnd i h hm
    constructor
    · rw [hshape, hfind]
      show Except.ok (wrap32 (i : Int)) = Except.ok (i : Int)
      rw [wrap32_eq (i : Int) (by omega) (by push_cast; omega)]
    · clear hshape hm hfind hlen hnd
      cases p <;> simp [storeEnumTable] at hpt <;> subst hpt <;>
        [skip; skip; skip; skip; skip; skip] <;> first
      | (have hb : i < 6 := by simpa using h
         interval_cases i <;> decide)
      | (have hb : i < 4 := by simpa using h
         interval_cases i <;> decide)
      | (have hb : i < 9 := by simpa using h
         interval_cases i <;> decide)
      | (have hb : i < 7 := by simpa using h
         interval_cases i <;> decide)
      | (have hb : i < 3 := by simpa using h
         interval_cases i <;> decide)

/-- C1 witness: on the status table, the display string "CHARGING"
(upper-cased "Charging", ordinal 1) and the decimal string "1" decode
to the same ordinal 1. -/
theorem claim_C1_witness :
    power_supply_store_decode PSProp.status "CHARGING" = Except.ok 1 ∧
    power_supply_store_decode PSProp.status (natToDecimal 1) = Except.ok 1 := by
  have h := (claim_C1 PSProp.status power_supply_status_text rfl
    "CHARGING").2.2.2 1 (by decide) (by decide)
  exact_mod_cast h

/-- C2 counterexample: the write path stores the parsed value through
the 32-bit `intval` union member, so the Integer64 round trip fails:
encoding the int64 value 2^40 renders "1099511627776\n", which decodes
back to 0, not 2^40; and the Type property (EnumText kind) has no case
in the store switch, so its encoded display string "Battery\n" does not
decode at all. -/
theorem claim_C2_counterexample :
    psRender PSProp.charge_counter_ext
        { intval := 0, int64val := 1099511627776, strval := "" } =
      CResult.ok "1099511627776\n" ∧
    power_supply_store_decode PSProp.charge_counter_ext "1099511627776\n" =
      Except.ok 0 ∧
    (0 : Int) ≠ 1099511627776 ∧
    psRender PSProp.type { intval := 1, int64val := 0, strval := "" } =
      CResult.ok "Battery\n" ∧
    power_supply_store_decode PSProp.type "Battery\n" =
      Except.error (-EINVAL) := by
  refine ⟨by decide, by decide, by decide, by decide, by decide⟩

theorem store_decode_int_roundtrip (p : PSProp)
    (hpt : storeEnumTable p = none) (v : Int)
    (h1 : -(2 ^ 63) ≤ v) (h2 : v < 2 ^ 63) :
    power_supply_store_decode p (intToDecimal v ++ "\n") =
      Except.ok (wrap32 v) := by
  rw [power_supply_store_decode_default p hpt, kstrtol_intToDecimal v h1 h2]

theorem enumRender_natCast (table : List String) (i : Nat)
    (h : i < table.length) :
    enumRender table (i : Int) = CResult.ok (table.get ⟨i, h⟩ ++ "\n") := by
  unfold enumRender
  have hc : (0 : Int) ≤ (i : Int) ∧ ((i : Int)).toNat < table.length := by
    exact ⟨by omega, by simpa using h⟩
  rw [dif_pos hc]
  simp

/-- C2 amended: decode-after-encode recovers the value for Integer
kind over the whole 32-bit int range and for the write path's EnumText
tables at every in-range ordinal; for Integer64 the write path stores
through the 32-bit int field, so decode yields the 32-bit wrap of the
value, which equals the value exactly on the 32-bit range; the Type
property's enum strings are not decodable (no store-switch case). -/
theorem claim_C2 :
    (∀ (p : PSProp) (v : Int) (x : Int) (s : String),
      kindOf p = ValueKind.integer → -(2 ^ 31) ≤ v → v < 2 ^ 31 →
        psRender p { intval := v, int64val := x, strval := s } =
          CResult.ok (intToDecimal v ++ "\n") ∧
        power_supply_store_decode p (intToDecimal v ++ "\n") =
          Except.ok v) ∧
    (∀ (p : PSProp) (table : List String),
      storeEnumTable p = some table →
      ∀ (i : Nat) (h : i < table.length) (x : Int) (s : String),
        psRender p { intval := (i : Int), int64val := x, strval := s } =
          CResult.ok (table.get ⟨i, h⟩ ++ "\n") ∧
        power_supply_store_decode p (table.get ⟨i, h⟩ ++ "\n") =
          Except.ok (i : Int)) ∧
    (∀ (v : Int) (x : Int) (s : String),
      -(2 ^ 63) ≤ v → v < 2 ^ 63 →
        psRender PSProp.charge_counter_ext
            { intval := x, int64val := v, strval := s } =
          CResult.ok (intToDecimal v ++ "\n") ∧
        power_supply_store_decode PSProp.charge_counter_ext
            (intToDecimal v ++ "\n") =
          Except.ok (wrap32 v) ∧
        (-(2 ^ 31) ≤ v → v < 2 ^ 31 → wrap32 v = v)) := by
  refine ⟨?_, ?_, ?_⟩
  · intro p v x s hk hv1 hv2
    have hpt : storeEnumTable p = none := by
      cases p <;> simp [kindOf] at hk <;> rfl
    constructor
    · cases p <;> simp [kindOf] at hk <;> rfl
    · rw [store_decode_int_roundtrip p hpt v (by omega) (by omega),
        wrap32_eq v hv1 hv2]
  · intro p table hpt i h x s
    have hnd := storeEnumTable_nodup p table hpt
    have hlen := storeEnumTable_len p table hpt
    have hrender : psRender p
        { intval := (i : Int), int64val := x, strval := s } =
        enumRender table (i : Int) := by
      cases p <;> simp [storeEnumTable] at hpt <;> subst hpt <;> rfl
    constructor
    · rw [hrender]
      exact enumRender_natCast table i h
    · have hfind : findMatchIdx
          (dropTrailingNl (table.get ⟨i, h⟩ ++ "\n")) table = some i := by
        rw [dropTrailingNl_append_nl]
        exact findMatchIdx_of_nodup _ table hnd i h (by simp [strCaseEq])
      rw [power_supply_store_decode_enum p table hpt, hfind]
      show Except.ok (wrap32 (i : Int)) = Except.ok (i : Int)
      rw [wrap32_eq (i : Int) (by omega) (by push_cast; omega)]
  · intro v x s h1 h2
    exact ⟨rfl, store_decode_int_roundtrip PSProp.charge_counter_ext rfl v h1 h2,
      fun a b => wrap32_eq v a b⟩

/-- C2 witness: concrete round trips — the Integer value 5 on
`present`, the status ordinal 1 via its display string, and the
Integer64 value 7 on `charge_counter_ext`. -/
theorem claim_C2_witness :
    power_supply_store_decode PSProp.present (intToDecimal 5 ++ "\n") =
      Except.ok 5 ∧
    power_supply_store_decode PSProp.status
        (power_supply_status_text.get ⟨1, by decide⟩ ++ "\n") =
      Except.ok 1 ∧
    power_supply_store_decode PSProp.charge_counter_ext
        (intToDecimal 7 ++ "\n") =
      Except.ok (wrap32 7) := by
  refine ⟨(claim_C2.1 PSProp.present 5 0 "" rfl (by decide) (by decide)).2,
    ?_, (claim_C2.2.2 7 0 "" (by decide) (by decide)).2.1⟩
  have h := (claim_C2.2.1 PSProp.status power_supply_status_text rfl 1
    (by decide) 0 "").2
  exact_mod_cast h

/-- C3 counterexample: a device whose getter fails with `-EAGAIN`
aborts the snapshot with that error — `-EAGAIN` is not among the
skipped codes, contradicting the claim that ENODEV/EAGAIN failures
never abort. -/
theorem claim_C3_counterexample :
    power_supply_uevent devEagain 2048 = CResult.err (-EAGAIN) := by decide

/-- C3 amended: the snapshot loop skips a property and continues
exactly when the getter fails with `-ENODEV` or `-ENODATA`; any other
negative failure — including `-EAGAIN` — aborts the snapshot and is
surfaced. -/
theorem claim_C3 (psy : PowerSupplyDev) (env : UeventEnv) (p : PSProp)
    (rest : List PSProp) (e : Int) (hp : p ≠ PSProp.type)
    (hget : (psy.get_property p).1 = e) (hlt : e < 0) :
    ((e = -ENODEV ∨ e = -ENODATA) →
      uevent_loop psy env (p :: rest) = uevent_loop psy env rest) ∧
    (e ≠ -ENODEV → e ≠ -ENODATA →
      uevent_loop psy env (p :: rest) = CResult.err e) :=
  ⟨fun hskip => uevent_loop_skip psy env p rest e hp hget hlt hskip,
   fun h1 h2 => uevent_loop_abort psy env p rest e hp hget hlt h1 h2⟩

/-- C3 witness: an `-ENODEV` getter failure is skipped, an `-EAGAIN`
one aborts, on concrete devices. -/
theorem claim_C3_witness :
    uevent_loop devEnodev { budget := 2048, vars := [], buflen := 0 }
        [PSProp.present] =
      uevent_loop devEnodev { budget := 2048, vars := [], buflen := 0 } [] ∧
    uevent_loop devEagain { budget := 2048, vars := [], buflen := 0 }
        [PSProp.present] = CResult.err (-EAGAIN) :=
  ⟨(claim_C3 devEnodev { budget := 2048, vars := [], buflen := 0 }
      PSProp.present [] (-ENODEV) (by decide) rfl (by decide)).1 (Or.inl rfl),
   (claim_C3 devEagain { budget := 2048, vars := [], buflen := 0 }
      PSProp.present [] (-EAGAIN) (by decide) rfl (by decide)).2
      (by decide) (by decide)⟩

/-- C6 counterexample: a device whose two pairs fit a 2048-byte budget
but exceed a 30-byte one; with the small budget the snapshot returns
the error `-ENOMEM`, not a successful strict prefix. -/
theorem claim_C6_counterexample :
    power_supply_uevent devOkPresent 2048 =
      CResult.ok ["POWER_SUPPLY_NAME=battery0", "POWER_SUPPLY_PRESENT=1"] ∧
    power_supply_uevent devOkPresent 30 = CResult.err (-ENOMEM) :=
  ⟨by decide, by decide⟩

/-- C6 amended: when appending a pair would exceed the byte budget the
append fails with `-ENOMEM`, and the snapshot loop aborts with that
error (the pairs accumulated so far are not returned as a success). -/
theorem claim_C6 (env : UeventEnv) (entry : String) (psy : PowerSupplyDev)
    (p : PSProp) (rest : List PSProp) (s : String) :
    (env.budget < env.buflen + entry.length + 1 →
      add_uevent_var env entry = Except.error (-ENOMEM)) ∧
    (power_supply_show_property psy p = CResult.ok s →
      add_uevent_var env
          ("POWER_SUPPLY_" ++ kstruprdup (attrName p) ++ "=" ++ truncAtNl s) =
        Except.error (-ENOMEM) →
      uevent_loop psy env (p :: rest) = CResult.err (-ENOMEM)) :=
  ⟨fun h => add_uevent_var_over env entry h,
   fun hshow hfail => uevent_loop_append_fail psy env p rest s hshow hfail⟩

/-- C6 witness: with 28 of 30 budget bytes used, appending the
23-byte `PRESENT` pair makes the loop abort with `-ENOMEM`. -/
theorem claim_C6_witness :
    uevent_loop devOkPresent env28 [PSProp.present] =
      CResult.err (-ENOMEM) :=
  (claim_C6 env28 "" devOkPresent PSProp.present [] "1\n").2
    (by decide) (by decide)

/-- C7 counterexample: a device reporting the out-of-range status
ordinal 6 (table length 6) makes the read path index outside the enum
table — an out-of-bounds access, not a rendered placeholder. -/
theorem claim_C7_counterexample :
    power_supply_show_property devStatus6 PSProp.status = CResult.oob ∧
    power_supply_status_text.length = 6 :=
  ⟨by decide, by decide⟩

/-- C7 amended: enum rendering indexes the table exactly when the
ordinal is in range; an out-of-range ordinal causes an out-of-bounds
table access (no placeholder), and for every enum-kind property the
read path renders the getter's value through that table lookup. -/
theorem claim_C7 (table : List String) (i : Int) (psy : PowerSupplyDev)
    (p : PSProp) (v x : Int) (s : String) :
    (∀ h : 0 ≤ i ∧ i.toNat < table.length,
      enumRender table i = CResult.ok (table.get ⟨i.toNat, h.2⟩ ++ "\n")) ∧
    (¬ (0 ≤ i ∧ i.toNat < table.length) →
      enumRender table i = CResult.oob) ∧
    (kindOf p = ValueKind.enumText table → p ≠ PSProp.type →
      psy.get_property p = (0, { intval := v, int64val := x, strval := s }) →
      power_supply_show_property psy p = enumRender table v) := by
  refine ⟨?_, ?_, ?_⟩
  · intro h
    unfold enumRender
    rw [dif_pos h]
  · intro h
    unfold enumRender
    rw [dif_neg h]
  · intro hk hp hget
    simp only [power_supply_show_property, if_neg hp, hget]
    show psRender p { intval := v, int64val := x, strval := s } =
      enumRender table v
    cases p <;> simp [kindOf] at hk <;> subst hk <;> rfl

/-- C7 witness: ordinal 6 on the status table is an out-of-bounds
access, and a concrete in-range device read goes through the table. -/
theorem claim_C7_witness :
    enumRender power_supply_status_text 6 = CResult.oob ∧
    power_supply_show_property devWritable PSProp.status =
      enumRender power_supply_status_text 1 :=
  ⟨(claim_C7 power_supply_status_text 6 devWritable PSProp.status 1 0
      "").2.1 (by decide),
   (claim_C7 power_supply_status_text 6 devWritable PSProp.status 1 0
      "").2.2 rfl (by decide) rfl⟩

/-- C8 counterexample: `model_name` is a Text-kind property, yet
writing the text "123" decodes to the integer 123 and the full store
path succeeds in invoking the setter — the write path does produce a
decoded value for a Text property. -/
theorem claim_C8_counterexample :
    kindOf PSProp.model_name = ValueKind.text ∧
    power_supply_store_decode PSProp.model_name "123" = Except.ok 123 ∧
    power_supply_store_property devText PSProp.model_name "123" 3 =
      Except.ok 3 :=
  ⟨rfl, by decide, by decide⟩

/-- C8 amended: Text-kind properties have no case in the store switch,
so a write falls to the integer branch: the text is decoded through
`kstrtol` (succeeding as a 32-bit value whenever it parses as an
integer, and handed to the setter), and fails only when the parse
fails. -/
theorem claim_C8 (p : PSProp) (t : String)
    (hk : kindOf p = ValueKind.text) :
    power_supply_store_decode p t =
      match kstrtol t with
      | Except.error e => Except.error e
      | Except.ok v => Except.ok (wrap32 v) := by
  have hpt : storeEnumTable p = none := by
    cases p <;> simp [kindOf] at hk <;> rfl
  exact power_supply_store_decode_default p hpt t

/-- C8 witness: a non-numeric write to `manufacturer` follows the
integer branch verbatim. -/
theorem claim_C8_witness :
    power_supply_store_decode PSProp.manufacturer "xyz" =
      match kstrtol "xyz" with
      | Except.error e => Except.error e
      | Except.ok v => Except.ok (wrap32 v) :=
  claim_C8 PSProp.manufacturer "xyz" rfl

/-- C9: every successful snapshot starts with the single leading
`POWER_SUPPLY_NAME=<name>` pair, every later pair's key is
`POWER_SUPPLY_` followed by the property's upper-cased identifier, and
no upper-cased identifier collides with the leading `NAME` key. -/
theorem claim_C9 (psy : PowerSupplyDev) (budget : Nat) (vars : List String)
    (h : power_supply_uevent psy budget = CResult.ok vars) :
    (∃ rest : List String,
      vars = ("POWER_SUPPLY_NAME=" ++ psy.desc_name) :: rest ∧
      ∀ v ∈ rest, ∃ p, p ∈ psy.desc_properties ∧ ∃ val : String,
        v = "POWER_SUPPLY_" ++ kstruprdup (attrName p) ++ "=" ++ val) ∧
    (∀ p : PSProp, kstruprdup (attrName p) ≠ "NAME") := by
  refine ⟨?_, by decide⟩
  cases hadd : add_uevent_var { budget := budget, vars := [], buflen := 0 }
      ("POWER_SUPPLY_NAME=" ++ psy.desc_name) with
  | error e =>
      simp only [power_supply_uevent, hadd] at h
      exact CResult.noConfusion h
  | ok env1 =>
      simp only [power_supply_uevent, hadd] at h
      cases hloop : uevent_loop psy env1 psy.desc_properties with
      | oob =>
          rw [hloop] at h
          exact CResult.noConfusion h
      | err e =>
          rw [hloop] at h
          exact CResult.noConfusion h
      | ok env2 =>
          rw [hloop] at h
          have hv : env2.vars = vars := by cases h; rfl
          obtain ⟨suffix, hs, hall⟩ :=
            uevent_loop_vars_shape psy psy.desc_properties env1 env2 hloop
          have henv1 : env1.vars =
              ["POWER_SUPPLY_NAME=" ++ psy.desc_name] := by
            unfold add_uevent_var at hadd
            by_cases hb : (0 : Nat) +
                ("POWER_SUPPLY_NAME=" ++ psy.desc_name).length + 1 ≤ budget
            · rw [if_pos hb] at hadd
              cases hadd
              rfl
            · rw [if_neg hb] at hadd
              exact Except.noConfusion hadd
          exact ⟨suffix, by rw [← hv, hs, henv1]; rfl, hall⟩

/-- C9 witness: the concrete snapshot of a one-property device has the
name pair first and an upper-cased key second. -/
theorem claim_C9_witness :
    ∃ rest : List String,
      ["POWER_SUPPLY_NAME=battery0", "POWER_SUPPLY_PRESENT=1"] =
        ("POWER_SUPPLY_NAME=" ++ devOkPresent.desc_name) :: rest := by
  obtain ⟨rest, hr, _⟩ := (claim_C9 devOkPresent 2048
    ["POWER_SUPPLY_NAME=battery0", "POWER_SUPPLY_PRESENT=1"]
    (by decide)).1
  exact ⟨rest, hr⟩

end PowerSupplySysfs
